import Mathlib

/-!
Verification of the served-port observer of the workspace component.

The repository ships the test file `components.go` (fixtures `validTCPInput`,
`validTCP6Input`, `TestObserve`, `TestReadNetTCPFile`); the implementation
under test (`ServedPort`, `readNetTCPFile`, `PollingServedPortsObserver`) is
not part of the sources at hand, so it is modelled here from the
specification, constrained by the behaviour the repository's tests demand.
Machine integers are modelled as `Nat`; the kernel socket-table text is
modelled as `String` / `List Char`.
-/

deriving instance DecidableEq for Except

namespace Ports

/-- Hex digit value of a character, `none` when the character is not a hex
digit.  Both upper and lower case digits are accepted, as Go's
`strconv.ParseUint`/`encoding/hex` do. -/
def hexVal (c : Char) : Option Nat :=
  if '0' ≤ c ∧ c ≤ '9' then some (c.toNat - '0'.toNat)
  else if 'a' ≤ c ∧ c ≤ 'f' then some (c.toNat - 'a'.toNat + 10)
  else if 'A' ≤ c ∧ c ≤ 'F' then some (c.toNat - 'A'.toNat + 10)
  else none

/-- Big-endian accumulation of hex digits; fails on the first non-digit. -/
def hexNatAux : List Char → Nat → Option Nat
  | [], acc => some acc
  | c :: cs, acc =>
    match hexVal c with
    | some v => hexNatAux cs (acc * 16 + v)
    | none => none

/-- Parse a non-empty string of hex digits as a big-endian natural number,
mirroring `strconv.ParseUint(s, 16, _)` (which rejects the empty string). -/
def hexNat : List Char → Option Nat
  | [] => none
  | c :: cs => hexNatAux (c :: cs) 0

/-- Decode a hex string into bytes, two digits per byte, mirroring
`encoding/hex.DecodeString`: fails on odd length or any non-digit. -/
def hexBytes : List Char → Option (List Nat)
  | [] => some []
  | c1 :: c2 :: cs =>
    match hexVal c1, hexVal c2, hexBytes cs with
    | some hi, some lo, some rest => some ((hi * 16 + lo) :: rest)
    | _, _, _ => none
  | [_] => none

/-- Split a character stream at newline characters (the scanner's lines). -/
def splitLinesAux : List Char → List Char → List (List Char)
  | [], acc => [acc.reverse]
  | c :: cs, acc =>
    if c = '\n' then acc.reverse :: splitLinesAux cs []
    else splitLinesAux cs (c :: acc)

/-- All lines of a character stream. -/
def splitLines (cs : List Char) : List (List Char) :=
  splitLinesAux cs []

/-- Whitespace as recognised by Go's `strings.Fields`, restricted to the
characters that can occur in one scanner line. -/
def isSpaceChar (c : Char) : Bool :=
  c = ' ' || c = '\t' || c = '\r'

/-- Helper for `splitFields`: `acc` holds the current (reversed) field. -/
def splitFieldsAux : List Char → List Char → List (List Char)
  | [], [] => []
  | [], acc => [acc.reverse]
  | c :: cs, acc =>
    if isSpaceChar c then
      match acc with
      | [] => splitFieldsAux cs []
      | _ => acc.reverse :: splitFieldsAux cs []
    else splitFieldsAux cs (c :: acc)

/-- The whitespace-separated fields of a line (`strings.Fields`): maximal
runs of non-space characters, no empty fields. -/
def splitFields (cs : List Char) : List (List Char) :=
  splitFieldsAux cs []

/-- Split a field at `:` (Go's `strings.Split(s, ":")`). -/
def splitColonAux : List Char → List Char → List (List Char)
  | [], acc => [acc.reverse]
  | c :: cs, acc =>
    if c = ':' then acc.reverse :: splitColonAux cs []
    else splitColonAux cs (c :: acc)

/-- All `:`-separated segments of a field. -/
def splitColon (cs : List Char) : List (List Char) :=
  splitColonAux cs []

/-- One observed listening socket: the Go `ServedPort` value type. The
address is its raw byte representation in network order (4 bytes for IPv4,
16 for IPv6); equality is structural on all three fields. -/
structure ServedPort where
  Address : List Nat
  Port : Nat
  BoundToLocalhost : Bool
deriving DecidableEq

/-- The IPv4 loopback address 127.0.0.1 as raw bytes. -/
def ipv4Loopback : List Nat := [127, 0, 0, 1]

/-- The IPv6 loopback address ::1 as raw bytes. -/
def ipv6Loopback : List Nat := [0, 0, 0, 0, 0, 0, 0, 0, 0, 0, 0, 0, 0, 0, 0, 1]

/-- The IPv4 wildcard address 0.0.0.0 as raw bytes. -/
def ipv4Zero : List Nat := [0, 0, 0, 0]

/-- The IPv6 wildcard address :: as raw bytes. -/
def ipv6Zero : List Nat := [0, 0, 0, 0, 0, 0, 0, 0, 0, 0, 0, 0, 0, 0, 0, 0]

/-- Modelled from the spec: the Scope Classifier. True iff the decoded
address equals its family's loopback constant; false for every other
address, including the wildcards. -/
def isLocalhost (addr : List Nat) : Bool :=
  addr = ipv4Loopback || addr = ipv6Loopback

/-- Modelled from the spec: address byte-order decoding. The kernel stores
addresses in host (little-endian) byte order, so a 4-byte IPv4 address is
byte-reversed as a whole, and a 16-byte IPv6 address is byte-reversed one
32-bit word at a time, the four words keeping their textual order. Any
other length is not a valid socket-table address. -/
def decodeTCPAddr : List Nat → Option (List Nat)
  | [b0, b1, b2, b3] => some [b3, b2, b1, b0]
  | [b0, b1, b2, b3, b4, b5, b6, b7, b8, b9, b10, b11, b12, b13, b14, b15] =>
    some [b3, b2, b1, b0, b7, b6, b5, b4, b11, b10, b9, b8, b15, b14, b13, b12]
  | _ => none

/-- The kernel's state code for a listening TCP socket, `"0A"`. -/
def listeningState : List Char := ['0', 'A']

/-- Modelled from the spec: decoding of a retained record's local
`address:port` field.  A field without exactly one colon is not a record
field (the header's `local_address`) and is skipped; non-hex digits in the
port or address, a port not fitting 16 bits, and an address that is
neither 4 nor 16 bytes are parse errors. -/
def decodeLocal (addrHex portHex : List Char) : Except String (Option ServedPort) :=
  match hexNat portHex with
  | none => Except.error "cannot parse port"
  | some port =>
    if 65536 ≤ port then Except.error "cannot parse port"
    else
      match hexBytes addrHex with
      | none => Except.error "cannot decode address"
      | some bytes =>
        match decodeTCPAddr bytes with
        | none => Except.error "unknown address format"
        | some addr =>
          Except.ok (some ⟨addr, port, isLocalhost addr⟩)

/-- Dispatch on the shape of the local field: exactly one colon makes it a
record field, anything else is skipped. -/
def decodeLocalField (localField : List Char) : Except String (Option ServedPort) :=
  match splitColon localField with
  | [addrHex, portHex] => decodeLocal addrHex portHex
  | _ => Except.ok none

/-- Modelled from the spec: processing of one scanner line of the socket
table, the per-record body of `readNetTCPFile`.  Lines that are not records
(too few fields, a local field without exactly one colon) and, in
listening-only mode, records whose state field is not the listening code
are skipped (`Except.ok none`), as the repository's tests demand for the
header line, blank lines and corrupted state fields; a record that is
retained but whose port or address text fails hex decoding, or whose
address is not 4 or 16 bytes, is a parse error failing the whole read. -/
def parseTCPLine (listeningOnly : Bool) (line : List Char) :
    Except String (Option ServedPort) :=
  match splitFields line with
  | _sl :: localField :: _rem :: st :: _rest =>
    if listeningOnly && st ≠ listeningState then Except.ok none
    else decodeLocalField localField
  | _ => Except.ok none

/-- Modelled from the spec: all records of a table, all-or-nothing — the
first parse error fails the whole read and discards every parsed record. -/
def readNetTCPLines (listeningOnly : Bool) :
    List (List Char) → Except String (List ServedPort)
  | [] => Except.ok []
  | l :: ls =>
    match parseTCPLine listeningOnly l with
    | Except.error e => Except.error e
    | Except.ok none => readNetTCPLines listeningOnly ls
    | Except.ok (some p) =>
      match readNetTCPLines listeningOnly ls with
      | Except.error e => Except.error e
      | Except.ok ps => Except.ok (p :: ps)

/-- The sort key of the emitted snapshots: ascending by port, ties broken
by the address's raw byte representation, compared lexicographically. -/
def portLe (p q : ServedPort) : Prop :=
  p.Port < q.Port ∨ (p.Port = q.Port ∧ p.Address ≤ q.Address)

instance : DecidableRel portLe := fun p q =>
  inferInstanceAs (Decidable (p.Port < q.Port ∨ (p.Port = q.Port ∧ p.Address ≤ q.Address)))

instance : IsTotal ServedPort portLe where
  total p q := by
    rcases Nat.lt_trichotomy p.Port q.Port with h | h | h
    · exact Or.inl (Or.inl h)
    · rcases le_total p.Address q.Address with ha | ha
      · exact Or.inl (Or.inr ⟨h, ha⟩)
      · exact Or.inr (Or.inr ⟨h.symm, ha⟩)
    · exact Or.inr (Or.inl h)

instance : IsTrans ServedPort portLe where
  trans p q r hpq hqr := by
    rcases hpq with h1 | ⟨e1, a1⟩
    · rcases hqr with h2 | ⟨e2, _⟩
      · exact Or.inl (h1.trans h2)
      · exact Or.inl (e2 ▸ h1)
    · rcases hqr with h2 | ⟨e2, a2⟩
      · exact Or.inl (e1 ▸ h2)
      · exact Or.inr ⟨e1.trans e2, a1.trans a2⟩

/-- Modelled from the spec: the Table Reader sorts its result ascending by
`(port, address)` before returning, so the Polling Observer only
concatenates the two families. -/
def sortPorts (ps : List ServedPort) : List ServedPort :=
  List.insertionSort portLe ps

/-- Modelled from the spec: `readNetTCPFile` — parse a socket table's text,
keep (in listening-only mode) exactly the listening records, decode each
retained record into a `ServedPort` and return them sorted by
`(port, address)`; any retained record that fails decoding fails the whole
read with a parse error. -/
def readNetTCPChars (input : List Char) (listeningOnly : Bool) :
    Except String (List ServedPort) :=
  match readNetTCPLines listeningOnly (splitLines input) with
  | Except.error e => Except.error e
  | Except.ok ps => Except.ok (sortPorts ps)

/-- `readNetTCPFile` on a Lean string. -/
def readNetTCPFile (input : String) (listeningOnly : Bool) :
    Except String (List ServedPort) :=
  readNetTCPChars input.data listeningOnly

/-- The injected file-opening capability's outcome: the content, a
distinguishable does-not-exist condition, or another I/O error. -/
inductive FileError where
  | notExist
  | other (msg : String)
deriving DecidableEq

/-- Error text surfaced on the error channel for a failed open. -/
def fileErrMsg : FileError → String
  | FileError.notExist => "file does not exist"
  | FileError.other msg => msg

/-- Everything one tick of the polling loop produces: the new last-emitted
snapshot, the update emitted on the update channel (if any), and the errors
emitted on the error channel. -/
structure TickOutcome where
  newLast : List ServedPort
  update : Option (List ServedPort)
  errors : List String
deriving DecidableEq

/-- Modelled from the spec: reading the IPv4 table on one tick.  Any
failure — open failure (including does-not-exist) or parse failure — is
fatal for the tick. -/
def readV4 (f4 : Except FileError String) : Except String (List ServedPort) :=
  match f4 with
  | Except.error e => Except.error (fileErrMsg e)
  | Except.ok content => readNetTCPFile content true

/-- Modelled from the spec: reading the IPv6 table on one tick.  A
does-not-exist open failure means IPv6 is unsupported: empty result, no
error.  Any other failure (open or parse) is reported but still yields an
empty IPv6 contribution. -/
def readV6 (f6 : Except FileError String) : List ServedPort × List String :=
  match f6 with
  | Except.error FileError.notExist => ([], [])
  | Except.error (FileError.other msg) => ([], [msg])
  | Except.ok content =>
    match readNetTCPFile content true with
    | Except.error e => ([], [e])
    | Except.ok ps => (ps, [])

/-- Modelled from the spec: one tick of `PollingServedPortsObserver.Observe`.
If the IPv4 read fails the error is emitted, the last emitted snapshot is
kept and no update is emitted.  Otherwise the candidate snapshot is the
IPv4 result followed by the IPv6 result, and it is emitted (and recorded as
the new last emitted snapshot) exactly when it differs structurally from
the last emitted snapshot. -/
def observeTick (f4 f6 : Except FileError String)
    (last : List ServedPort) : TickOutcome :=
  match readV4 f4 with
  | Except.error e => ⟨last, none, [e]⟩
  | Except.ok p4 =>
    if p4 ++ (readV6 f6).1 = last then ⟨last, none, (readV6 f6).2⟩
    else ⟨p4 ++ (readV6 f6).1, some (p4 ++ (readV6 f6).1), (readV6 f6).2⟩

/-- Modelled from the spec: the polling loop run over a finite schedule of
per-tick file contents, collecting the emitted snapshots in order.  The
loop never terminates on errors; it processes every scheduled tick. -/
def observeRun : List (Except FileError String × Except FileError String) →
    List ServedPort → List (List ServedPort)
  | [], _ => []
  | (f4, f6) :: rest, last =>
    let t := observeTick f4 f6 last
    (match t.update with
     | some u => [u]
     | none => []) ++ observeRun rest t.newLast

/-- The Go test fixture `validTCPInput` (five IPv4 records, states
0A, 0A, 0A, 01, 01). -/
def validTCPInput : String :=
  "  sl  local_address rem_address   st tx_queue rx_queue tr tm->when retrnsmt   uid  timeout inode\n   0: 00000000:59D8 00000000:0000 0A 00000000:00000000 00:00000000 00000000 33333        0 57008615 1 0000000000000000 100 0 0 10 0\n   1: 00000000:17C0 00000000:0000 0A 00000000:00000000 00:00000000 00000000 33333        0 57020850 1 0000000000000000 100 0 0 10 0\n   2: 0100007F:170C 00000000:0000 0A 00000000:00000000 00:00000000 00000000 33333        0 57019442 1 0000000000000000 100 0 0 10 0\n   3: 0100007F:EB64 0100007F:59D7 01 00000000:00000000 02:00000348 00000000 33333        0 57010758 2 0000000000000000 20 4 1 10 -1\n   4: 940C380A:59D8 0302380A:BFFC 01 00000000:00000000 00:00000000 00000000 33333        0 57015718 3 0000000000000000 20 4 29 61 17\n"

/-- The Go test fixture `validTCP6Input` (IPv6 records; the four listening
ones are port 22999 on ::, 35900 on ::, 5900 on ::1 and 36080 on ::). -/
def validTCP6Input : String :=
  "  sl  local_address                         remote_address                        st tx_queue rx_queue tr tm->when retrnsmt   uid  timeout inode\n   0: 00000000000000000000000000000000:59D7 00000000000000000000000000000000:0000 0A 00000000:00000000 00:00000000 00000000 33333        0 57007063 1 0000000000000000 100 0 0 10 0\n   1: 00000000000000000000000000000000:8C3C 00000000000000000000000000000000:0000 0A 00000000:00000000 00:00000000 00000000 33333        0 57022992 1 0000000000000000 100 0 0 10 0\n   2: 00000000000000000000000001000000:170C 00000000000000000000000000000000:0000 0A 00000000:00000000 00:00000000 00000000 33333        0 57019446 1 0000000000000000 100 0 0 10 0\n   3: 00000000000000000000000000000000:8CF0 00000000000000000000000000000000:0000 0A 00000000:00000000 00:00000000 00000000 33333        0 57018070 1 0000000000000000 100 0 0 10 0\n   4: 0000000000000000FFFF0000940C380A:59D7 0000000000000000FFFF00006100840A:E45C 06 00000000:00000000 03:00001002 00000000     0        0 0 3 0000000000000000\n   5: 0000000000000000FFFF0000940C380A:59D7 0000000000000000FFFF00006100840A:E38A 06 00000000:00000000 03:00000D46 00000000     0        0 0 3 0000000000000000\n   6: 0000000000000000FFFF0000940C380A:59D7 0000000000000000FFFF0000030C380A:DBFE 01 00000000:00000000 02:000005D2 00000000 33333        0 57015690 2 0000000000000000 20 4 0 10 -1\n   7: 0000000000000000FFFF0000940C380A:59D7 0000000000000000FFFF00006100840A:E08A 06 00000000:00000000 03:000003E6 00000000     0        0 0 3 0000000000000000\n  20: 0000000000000000FFFF00000100007F:59D7 0000000000000000FFFF00000100007F:EB64 01 00000000:00000000 02:000003D2 00000000 33333        0 57014424 2 0000000000000000 20 4 0 10 -1"

/-- The expected reader output for `validTCPInput` in listening-only mode
(asserted by `TestReadNetTCPFile`). -/
def expectedTCP4Ports : List ServedPort :=
  [⟨ipv4Loopback, 5900, true⟩, ⟨ipv4Zero, 6080, false⟩, ⟨ipv4Zero, 23000, false⟩]

/-- The expected reader output for `validTCP6Input` in listening-only mode
(asserted by `TestReadNetTCPFile`). -/
def expectedTCP6Ports : List ServedPort :=
  [⟨ipv6Loopback, 5900, true⟩, ⟨ipv6Zero, 22999, false⟩,
   ⟨ipv6Zero, 35900, false⟩, ⟨ipv6Zero, 36080, false⟩]

/-- Go's `strings.ReplaceAll(s, "0A", "")` specialised to the test's use:
remove every (left-to-right, non-overlapping) occurrence of `0A`. -/
def removeAll0A : List Char → List Char
  | '0' :: 'A' :: cs => removeAll0A cs
  | c :: cs => c :: removeAll0A cs
  | [] => []

/-- The "invalid input" fixture of `TestReadNetTCPFile`: `validTCPInput`
with every occurrence of `0A` removed, corrupting the state fields of the
three listening records. -/
def corruptedTCPInput : List Char := removeAll0A validTCPInput.data

/-- A single listening IPv4 record, local field `0100007F:170C`
(127.0.0.1, port 5900): line 2 of `validTCPInput`. -/
def tcp4Line5900 : String :=
  "   2: 0100007F:170C 00000000:0000 0A 00000000:00000000 00:00000000 00000000 33333        0 57019442 1 0000000000000000 100 0 0 10 0"

/-- A single listening IPv4 record, local field `AD0E600A:240D`
(10.96.14.173, port 9229): from the fifth `TestObserve` fixture. -/
def tcp4Line9229 : String :=
  "   0: AD0E600A:240D 00000000:0000 0A 00000000:00000000 00:00000000 00000000     0        0 53934502 1 0000000000000000 100 0 0 10 0"

/-- A single listening IPv6 record, local address
`00000000000000000000000001000000` (::1), port 5900: line 2 of
`validTCP6Input`. -/
def tcp6LineLoopback : String :=
  "   2: 00000000000000000000000001000000:170C 00000000000000000000000000000000:0000 0A 00000000:00000000 00:00000000 00000000 33333        0 57019446 1 0000000000000000 100 0 0 10 0"

/-- A single listening IPv6 record with the all-zero local address (::),
port 22999: line 0 of `validTCP6Input`. -/
def tcp6LineZero : String :=
  "   0: 00000000000000000000000000000000:59D7 00000000000000000000000000000000:0000 0A 00000000:00000000 00:00000000 00000000 33333        0 57007063 1 0000000000000000 100 0 0 10 0"

/-- The non-listening (state 01) line 3 of `validTCPInput`. -/
def tcp4LineEstablished : String :=
  "   3: 0100007F:EB64 0100007F:59D7 01 00000000:00000000 02:00000348 00000000 33333        0 57010758 2 0000000000000000 20 4 1 10 -1"

/-- A record in listening state whose port text `17GC` contains the
non-hex digit `G`. -/
def tcp4LineBadPort : String :=
  "   0: 00000000:17GC 00000000:0000 0A 0"

/-- The IPv4 table of the second `TestObserve` fixture: no header line, a
leading blank line, three listening records. -/
def ip4NoHeaderInput : String :=
  "\n   0: 00000000:17C0 00000000:0000 0A 00000000:00000000 00:00000000 00000000 33333        0 21757239 1 0000000000000000 100 0 0 10 0\n   1: 0100007F:170C 00000000:0000 0A 00000000:00000000 00:00000000 00000000 33333        0 21752303 1 0000000000000000 100 0 0 10 0\n   2: 00000000:59D8 00000000:0000 0A 00000000:00000000 00:00000000 00000000 33333        0 21752496 1 0000000000000000 100 0 0 10 0"

/-! Supporting lemmas. -/

theorem hexBytes_length : ∀ cs bs, hexBytes cs = some bs → cs.length = 2 * bs.length
  | [], bs, h => by
    simp only [hexBytes, Option.some.injEq] at h
    subst h
    rfl
  | [_], _, h => by
    simp only [hexBytes] at h
    exact Option.noConfusion h
  | c1 :: c2 :: cs, bs, h => by
    simp only [hexBytes] at h
    split at h
    next hi lo rest h1 h2 h3 =>
      cases h
      have ih := hexBytes_length cs rest h3
      simp only [List.length_cons, ih]
      omega
    next => exact absurd h (by simp)

theorem length_four {α : Type} : ∀ {l : List α}, l.length = 4 →
    ∃ a b c d, l = [a, b, c, d]
  | [a, b, c, d], _ => ⟨a, b, c, d, rfl⟩

theorem decodeTCPAddr_words {w1 w2 w3 w4 : List Nat} (h1 : w1.length = 4)
    (h2 : w2.length = 4) (h3 : w3.length = 4) (h4 : w4.length = 4) :
    decodeTCPAddr (w1 ++ w2 ++ w3 ++ w4) =
      some (w1.reverse ++ w2.reverse ++ w3.reverse ++ w4.reverse) := by
  obtain ⟨a1, a2, a3, a4, rfl⟩ := length_four h1
  obtain ⟨b1, b2, b3, b4, rfl⟩ := length_four h2
  obtain ⟨c1, c2, c3, c4, rfl⟩ := length_four h3
  obtain ⟨d1, d2, d3, d4, rfl⟩ := length_four h4
  rfl

theorem decodeLocal_localhost {addrHex portHex : List Char} {p : ServedPort}
    (h : decodeLocal addrHex portHex = Except.ok (some p)) :
    p.BoundToLocalhost = isLocalhost p.Address := by
  unfold decodeLocal at h
  cases hn : hexNat portHex with
  | none =>
    simp only [hn] at h
    exact Except.noConfusion h
  | some port =>
    simp only [hn] at h
    by_cases hle : 65536 ≤ port
    · rw [if_pos hle] at h; exact Except.noConfusion h
    · rw [if_neg hle] at h
      cases hb : hexBytes addrHex with
      | none =>
        simp only [hb] at h
        exact Except.noConfusion h
      | some bytes =>
        simp only [hb] at h
        cases hd : decodeTCPAddr bytes with
        | none =>
          simp only [hd] at h
          exact Except.noConfusion h
        | some addr =>
          simp only [hd, Except.ok.injEq, Option.some.injEq] at h
          subst h
          rfl

theorem decodeLocalField_localhost {lf : List Char} {p : ServedPort}
    (h : decodeLocalField lf = Except.ok (some p)) :
    p.BoundToLocalhost = isLocalhost p.Address := by
  unfold decodeLocalField at h
  split at h
  · exact decodeLocal_localhost h
  · simp only [Except.ok.injEq] at h
    exact absurd h (by simp)

theorem parseTCPLine_localhost {lo : Bool} {line : List Char} {p : ServedPort}
    (h : parseTCPLine lo line = Except.ok (some p)) :
    p.BoundToLocalhost = isLocalhost p.Address := by
  unfold parseTCPLine at h
  split at h
  · split at h
    · simp only [Except.ok.injEq] at h
      exact absurd h (by simp)
    · exact decodeLocalField_localhost h
  · simp only [Except.ok.injEq] at h
    exact absurd h (by simp)

theorem readNetTCPLines_mem {lo : Bool} :
    ∀ {ls : List (List Char)} {ps : List ServedPort} {p : ServedPort},
      readNetTCPLines lo ls = Except.ok ps → p ∈ ps →
      ∃ l ∈ ls, parseTCPLine lo l = Except.ok (some p)
  | [], ps, p, h, hp => by
    simp only [readNetTCPLines, Except.ok.injEq] at h
    subst h
    exact absurd hp (by simp)
  | l :: ls, ps, p, h, hp => by
    cases hp0 : parseTCPLine lo l with
    | error e0 =>
      simp only [readNetTCPLines, hp0] at h
      exact Except.noConfusion h
    | ok o =>
      cases o with
      | none =>
        simp only [readNetTCPLines, hp0] at h
        obtain ⟨l', hl', hpl'⟩ := readNetTCPLines_mem h hp
        exact ⟨l', List.mem_cons_of_mem _ hl', hpl'⟩
      | some q =>
        simp only [readNetTCPLines, hp0] at h
        cases hr : readNetTCPLines lo ls with
        | error e => rw [hr] at h; exact Except.noConfusion h
        | ok ps' =>
          rw [hr] at h
          simp only [Except.ok.injEq] at h
          subst h
          rcases List.mem_cons.mp hp with rfl | hmem
          · exact ⟨l, List.mem_cons_self _ _, hp0⟩
          · obtain ⟨l', hl', hpl'⟩ := readNetTCPLines_mem hr hmem
            exact ⟨l', List.mem_cons_of_mem _ hl', hpl'⟩

theorem readNetTCPLines_error_of_mem {lo : Bool} :
    ∀ {ls : List (List Char)} {l : List Char} {e : String}, l ∈ ls →
      parseTCPLine lo l = Except.error e →
      ∃ e', readNetTCPLines lo ls = Except.error e'
  | [], _, _, hl, _ => absurd hl (by simp)
  | l0 :: ls, l, e, hl, hp => by
    rcases List.mem_cons.mp hl with rfl | hmem
    · exact ⟨e, by simp only [readNetTCPLines, hp]⟩
    · obtain ⟨e', he'⟩ := readNetTCPLines_error_of_mem hmem hp
      cases hp0 : parseTCPLine lo l0 with
      | error e0 => exact ⟨e0, by simp only [readNetTCPLines, hp0]⟩
      | ok o =>
        cases o with
        | none =>
          refine ⟨e', ?_⟩
          simp only [readNetTCPLines, hp0]
          exact he'
        | some q => exact ⟨e', by simp only [readNetTCPLines, hp0, he']⟩

theorem readNetTCPChars_sorted {cs : List Char} {lo : Bool} {ps : List ServedPort}
    (h : readNetTCPChars cs lo = Except.ok ps) : List.Sorted portLe ps := by
  unfold readNetTCPChars at h
  split at h
  · exact absurd h (by simp)
  · cases h
    exact List.sorted_insertionSort portLe _

theorem readNetTCPChars_mem {cs : List Char} {lo : Bool} {ps : List ServedPort}
    {p : ServedPort} (h : readNetTCPChars cs lo = Except.ok ps) (hp : p ∈ ps) :
    ∃ l ∈ splitLines cs, parseTCPLine lo l = Except.ok (some p) := by
  unfold readNetTCPChars at h
  split at h
  · exact absurd h (by simp)
  · next ps' hps' =>
    cases h
    exact readNetTCPLines_mem hps' ((List.mem_insertionSort portLe).mp hp)

theorem readV6_fst_spec (f6 : Except FileError String) :
    (readV6 f6).1 = [] ∨
      ∃ c6, f6 = Except.ok c6 ∧ readNetTCPFile c6 true = Except.ok (readV6 f6).1 := by
  cases f6 with
  | error e =>
    cases e with
    | notExist => exact Or.inl rfl
    | other msg => exact Or.inl rfl
  | ok c =>
    cases hr : readNetTCPFile c true with
    | error er =>
      left
      simp [readV6, hr]
    | ok ps =>
      right
      exact ⟨c, rfl, by simp [readV6, hr]⟩

theorem observeTick_update_src {f4 f6 : Except FileError String}
    {last out : List ServedPort}
    (h : (observeTick f4 f6 last).update = some out) :
    ∃ c4 p4, f4 = Except.ok c4 ∧ readNetTCPFile c4 true = Except.ok p4 ∧
      out = p4 ++ (readV6 f6).1 := by
  unfold observeTick at h
  split at h
  · exact absurd h (by simp)
  · next p4 hp4 =>
    split at h
    · exact absurd h (by simp)
    · simp only [Option.some.injEq] at h
      subst h
      cases f4 with
      | error e => exact absurd hp4 (by simp [readV4])
      | ok c4 =>
        refine ⟨c4, p4, rfl, ?_, rfl⟩
        simpa [readV4] using hp4

theorem length_sixteen {α : Type} : ∀ {l : List α}, l.length = 16 →
    ∃ w1 w2 w3 w4 : List α, l = w1 ++ w2 ++ w3 ++ w4 ∧
      w1.length = 4 ∧ w2.length = 4 ∧ w3.length = 4 ∧ w4.length = 4
  | [a1, a2, a3, a4, b1, b2, b3, b4, c1, c2, c3, c4, d1, d2, d3, d4], _ =>
    ⟨[a1, a2, a3, a4], [b1, b2, b3, b4], [c1, c2, c3, c4], [d1, d2, d3, d4],
      rfl, rfl, rfl, rfl, rfl⟩

theorem readNetTCPFile_sorted {s : String} {lo : Bool} {ps : List ServedPort}
    (h : readNetTCPFile s lo = Except.ok ps) : List.Sorted portLe ps :=
  readNetTCPChars_sorted h

theorem readNetTCPFile_mem {s : String} {lo : Bool} {ps : List ServedPort}
    {p : ServedPort} (h : readNetTCPFile s lo = Except.ok ps) (hp : p ∈ ps) :
    ∃ l ∈ splitLines s.data, parseTCPLine lo l = Except.ok (some p) :=
  readNetTCPChars_mem h hp

/-! Claim theorems. -/

/-- C1: a record's IPv4 address (8 hex digits) decodes by byte-reversing
its 4 bytes, and its port (4 hex digits) decodes big-endian with no byte
reversal; in particular the local field `0100007F:170C` decodes to
127.0.0.1 port 5900 and `AD0E600A:240D` to 10.96.14.173 port 9229. -/
theorem ipv4_little_endian_decode :
    (∀ cs bs, cs.length = 8 → hexBytes cs = some bs →
      decodeTCPAddr bs = some bs.reverse) ∧
    (∀ c1 c2 c3 c4 d1 d2 d3 d4, hexVal c1 = some d1 → hexVal c2 = some d2 →
      hexVal c3 = some d3 → hexVal c4 = some d4 →
      hexNat [c1, c2, c3, c4] = some (((d1 * 16 + d2) * 16 + d3) * 16 + d4)) ∧
    readNetTCPFile tcp4Line5900 true = Except.ok [⟨ipv4Loopback, 5900, true⟩] ∧
    readNetTCPFile tcp4Line9229 true =
      Except.ok [⟨[10, 96, 14, 173], 9229, false⟩] := by
  refine ⟨?_, ?_, by decide, by decide⟩
  · intro cs bs h8 hb
    have hl := hexBytes_length cs bs hb
    rw [h8] at hl
    obtain ⟨a, b, c, d, rfl⟩ := length_four (by omega : bs.length = 4)
    rfl
  · intro c1 c2 c3 c4 d1 d2 d3 d4 h1 h2 h3 h4
    simp [hexNat, hexNatAux, h1, h2, h3, h4]

/-- Witness for C1: the reversal at the bytes of `0100007F` and the
big-endian port at the digits of `240D`. -/
theorem ipv4_little_endian_decode_witness :
    decodeTCPAddr [1, 0, 0, 127] = some [127, 0, 0, 1] ∧
    hexNat ['2', '4', '0', 'D'] = some 9229 := by
  constructor
  · have h := ipv4_little_endian_decode.1
      ['0', '1', '0', '0', '0', '0', '7', 'F'] [1, 0, 0, 127]
      (by decide) (by decide)
    simpa using h
  · have h := ipv4_little_endian_decode.2.1 '2' '4' '0' 'D' 2 4 0 13
      (by decide) (by decide) (by decide) (by decide)
    simpa using h

/-- C2: a record's IPv6 address (32 hex digits, 16 bytes) decodes by
splitting into four 4-byte words, byte-reversing each word independently
and concatenating the words in textual order; in particular
`00000000000000000000000001000000` decodes to ::1 and the all-zero field
decodes to ::. -/
theorem ipv6_word_reversal_decode :
    (∀ cs bs, cs.length = 32 → hexBytes cs = some bs →
      ∃ w1 w2 w3 w4 : List Nat, bs = w1 ++ w2 ++ w3 ++ w4 ∧
        w1.length = 4 ∧ w2.length = 4 ∧ w3.length = 4 ∧ w4.length = 4 ∧
        decodeTCPAddr bs =
          some (w1.reverse ++ w2.reverse ++ w3.reverse ++ w4.reverse)) ∧
    readNetTCPFile tcp6LineLoopback true =
      Except.ok [⟨ipv6Loopback, 5900, true⟩] ∧
    readNetTCPFile tcp6LineZero true =
      Except.ok [⟨ipv6Zero, 22999, false⟩] := by
  refine ⟨?_, by decide, by decide⟩
  intro cs bs h32 hb
  have hl := hexBytes_length cs bs hb
  rw [h32] at hl
  obtain ⟨w1, w2, w3, w4, rfl, h1, h2, h3, h4⟩ :=
    length_sixteen (by omega : bs.length = 16)
  exact ⟨w1, w2, w3, w4, rfl, h1, h2, h3, h4,
    decodeTCPAddr_words h1 h2 h3 h4⟩

/-- Witness for C2: the word-wise reversal at the bytes of the ::1 hex
field `00000000000000000000000001000000`. -/
theorem ipv6_word_reversal_decode_witness :
    ∃ w1 w2 w3 w4 : List Nat,
      [0, 0, 0, 0, 0, 0, 0, 0, 0, 0, 0, 0, 1, 0, 0, 0] =
        w1 ++ w2 ++ w3 ++ w4 ∧
      w1.length = 4 ∧ w2.length = 4 ∧ w3.length = 4 ∧ w4.length = 4 ∧
      decodeTCPAddr [0, 0, 0, 0, 0, 0, 0, 0, 0, 0, 0, 0, 1, 0, 0, 0] =
        some (w1.reverse ++ w2.reverse ++ w3.reverse ++ w4.reverse) :=
  ipv6_word_reversal_decode.1
    ("00000000000000000000000001000000".data)
    [0, 0, 0, 0, 0, 0, 0, 0, 0, 0, 0, 0, 1, 0, 0, 0]
    (by decide) (by decide)

/-- C3: every emitted snapshot is the IPv4 table's result followed by the
IPv6 table's result (possibly empty), each sorted ascending by
`(port, address)` with the address compared as raw bytes; in particular at
the port-9229 tie, 10.96.14.173 sorts before 127.0.0.1. -/
theorem snapshot_family_order :
    (∀ f4 f6 last out, (observeTick f4 f6 last).update = some out →
      ∃ p4 p6, out = p4 ++ p6 ∧
        List.Sorted portLe p4 ∧ List.Sorted portLe p6 ∧
        (∃ c4, f4 = Except.ok c4 ∧ readNetTCPFile c4 true = Except.ok p4) ∧
        (p6 = [] ∨
          ∃ c6, f6 = Except.ok c6 ∧ readNetTCPFile c6 true = Except.ok p6)) ∧
    sortPorts [⟨ipv4Loopback, 9229, true⟩, ⟨[10, 96, 14, 173], 9229, false⟩] =
      [⟨[10, 96, 14, 173], 9229, false⟩, ⟨ipv4Loopback, 9229, true⟩] := by
  refine ⟨?_, by decide⟩
  intro f4 f6 last out h
  obtain ⟨c4, p4, hf4, hr4, rfl⟩ := observeTick_update_src h
  refine ⟨p4, (readV6 f6).1, rfl, readNetTCPFile_sorted hr4, ?_,
    ⟨c4, hf4, hr4⟩, readV6_fst_spec f6⟩
  rcases readV6_fst_spec f6 with hnil | ⟨c6, _, hr6⟩
  · rw [hnil]
    exact List.sorted_nil
  · exact readNetTCPFile_sorted hr6

/-- Witness for C3: a concrete tick with the single-record IPv4 table and
a missing IPv6 table. -/
theorem snapshot_family_order_witness :
    ∃ p4 p6, [(⟨ipv4Loopback, 5900, true⟩ : ServedPort)] = p4 ++ p6 ∧
      List.Sorted portLe p4 ∧ List.Sorted portLe p6 ∧
      (∃ c4, (Except.ok tcp4Line5900 : Except FileError String) =
          Except.ok c4 ∧
        readNetTCPFile c4 true = Except.ok p4) ∧
      (p6 = [] ∨ ∃ c6, (Except.error FileError.notExist :
          Except FileError String) = Except.ok c6 ∧
        readNetTCPFile c6 true = Except.ok p6) :=
  snapshot_family_order.1 (Except.ok tcp4Line5900)
    (Except.error FileError.notExist) [] [⟨ipv4Loopback, 5900, true⟩]
    (by decide)

/-- C4: in listening-only mode exactly the records whose state field is
`0A` are retained: any record line with a different state field is
skipped, any retained record had state field `0A`, and on the five-record
fixture (states 0A, 0A, 0A, 01, 01) exactly the three listening ports
5900, 6080 and 23000 are returned. -/
theorem listening_only_filter :
    (∀ line sl localF rem st rest,
      splitFields line = sl :: localF :: rem :: st :: rest →
      st ≠ listeningState → parseTCPLine true line = Except.ok none) ∧
    (∀ line p, parseTCPLine true line = Except.ok (some p) →
      ∃ sl localF rem rest,
        splitFields line = sl :: localF :: rem :: listeningState :: rest) ∧
    readNetTCPFile validTCPInput true = Except.ok expectedTCP4Ports := by
  refine ⟨?_, ?_, by decide⟩
  · intro line sl localF rem st rest hf hst
    simp [parseTCPLine, hf, hst]
  · intro line p h
    unfold parseTCPLine at h
    split at h
    · next sl localF rem st rest heq =>
      by_cases hs : st = listeningState
      · subst hs
        exact ⟨sl, localF, rem, rest, heq⟩
      · rw [if_pos (by simp [hs])] at h
        exact absurd h (by simp)
    · exact absurd h (by simp)

/-- Witness for C4: the established-state (01) line 3 of the fixture is
skipped. -/
theorem listening_only_filter_witness :
    parseTCPLine true tcp4LineEstablished.data = Except.ok none :=
  listening_only_filter.1 tcp4LineEstablished.data
    (splitFields tcp4LineEstablished.data).head!
    ((splitFields tcp4LineEstablished.data).get! 1)
    ((splitFields tcp4LineEstablished.data).get! 2)
    ['0', '1']
    ((splitFields tcp4LineEstablished.data).drop 4)
    (by decide) (by decide)

/-- C5: `BoundToLocalhost` is true iff the decoded address is the family's
loopback constant; every `ServedPort` produced by the reader or emitted by
the observer carries exactly this flag, and the wildcard and routable
addresses are never flagged. -/
theorem localhost_flag_iff :
    (∀ addr, isLocalhost addr = true ↔
      (addr = ipv4Loopback ∨ addr = ipv6Loopback)) ∧
    (∀ s lo ps, readNetTCPFile s lo = Except.ok ps →
      ∀ p ∈ ps, p.BoundToLocalhost = isLocalhost p.Address) ∧
    (∀ f4 f6 last out, (observeTick f4 f6 last).update = some out →
      ∀ p ∈ out, p.BoundToLocalhost = isLocalhost p.Address) ∧
    isLocalhost ipv4Zero = false ∧ isLocalhost ipv6Zero = false ∧
    isLocalhost [10, 96, 14, 173] = false := by
  have hread : ∀ (s : String) (lo : Bool) (ps : List ServedPort),
      readNetTCPFile s lo = Except.ok ps →
      ∀ p ∈ ps, p.BoundToLocalhost = isLocalhost p.Address := by
    intro s lo ps h p hp
    obtain ⟨l, _, hl⟩ := readNetTCPFile_mem h hp
    exact parseTCPLine_localhost hl
  refine ⟨?_, hread, ?_, by decide, by decide, by decide⟩
  · intro addr
    simp [isLocalhost]
  · intro f4 f6 last out h p hp
    obtain ⟨c4, p4, _, hr4, rfl⟩ := observeTick_update_src h
    rcases List.mem_append.mp hp with h4 | h6
    · exact hread _ _ _ hr4 p h4
    · rcases readV6_fst_spec f6 with hnil | ⟨c6, _, hr6⟩
      · rw [hnil] at h6
        exact absurd h6 (by simp)
      · exact hread _ _ _ hr6 p h6

/-- Witness for C5: the reader invariant evaluated at the loopback entry
of the five-record fixture. -/
theorem localhost_flag_iff_witness :
    (⟨ipv4Loopback, 5900, true⟩ : ServedPort).BoundToLocalhost =
      isLocalhost (⟨ipv4Loopback, 5900, true⟩ : ServedPort).Address :=
  localhost_flag_iff.2.1 validTCPInput true expectedTCP4Ports
    (by decide) ⟨ipv4Loopback, 5900, true⟩ (by decide)

theorem observeRun_steady {c4 c6 : String} {p4 p6 : List ServedPort}
    (hr4 : readNetTCPFile c4 true = Except.ok p4)
    (hr6 : readNetTCPFile c6 true = Except.ok p6) :
    ∀ n, observeRun (List.replicate n (Except.ok c4, Except.ok c6))
      (p4 ++ p6) = []
  | 0 => rfl
  | n + 1 => by
    have htick : observeTick (Except.ok c4) (Except.ok c6) (p4 ++ p6) =
        ⟨p4 ++ p6, none, []⟩ := by
      simp [observeTick, readV4, readV6, hr4, hr6]
    simp [List.replicate_succ, observeRun, htick,
      observeRun_steady hr4 hr6 n]

/-- C6: the observer emits only snapshots that differ structurally from
the last emitted one; identical table content on consecutive ticks yields
exactly one emission, and a run that only ever observes no listening
sockets emits nothing, the initial last-emitted snapshot being empty. -/
theorem emit_only_on_change :
    (∀ f4 f6 last out, (observeTick f4 f6 last).update = some out →
      out ≠ last) ∧
    (∀ c4 c6 p4 p6 n, readNetTCPFile c4 true = Except.ok p4 →
      readNetTCPFile c6 true = Except.ok p6 → p4 ++ p6 ≠ [] →
      observeRun (List.replicate (n + 1) (Except.ok c4, Except.ok c6)) [] =
        [p4 ++ p6]) ∧
    (∀ c4 c6 p4 p6 n, readNetTCPFile c4 true = Except.ok p4 →
      readNetTCPFile c6 true = Except.ok p6 → p4 ++ p6 = [] →
      observeRun (List.replicate n (Except.ok c4, Except.ok c6)) [] = []) := by
  refine ⟨?_, ?_, ?_⟩
  · intro f4 f6 last out h
    unfold observeTick at h
    split at h
    · exact absurd h (by simp)
    · split at h
      · exact absurd h (by simp)
      · next hne =>
        simp only [Option.some.injEq] at h
        subst h
        exact hne
  · intro c4 c6 p4 p6 n hr4 hr6 hne
    have htick : observeTick (Except.ok c4) (Except.ok c6) [] =
        ⟨p4 ++ p6, some (p4 ++ p6), []⟩ := by
      simp [observeTick, readV4, readV6, hr4, hr6, hne]
    simp [List.replicate_succ, observeRun, htick,
      observeRun_steady hr4 hr6 n]
  · intro c4 c6 p4 p6 n hr4 hr6 heq
    simpa [heq] using observeRun_steady hr4 hr6 n

/-- Witness for C6: two consecutive ticks of the single-record IPv4 table
and an empty IPv6 table emit the snapshot exactly once. -/
theorem emit_only_on_change_witness :
    observeRun (List.replicate 2 (Except.ok tcp4Line5900, Except.ok "")) [] =
      [[⟨ipv4Loopback, 5900, true⟩]] := by
  simpa using emit_only_on_change.2.1 tcp4Line5900 ""
    [⟨ipv4Loopback, 5900, true⟩] [] 1 (by decide) (by decide) (by decide)

/-- C7: a failing IPv4 read — open failure of any kind, or a parse
failure — emits the error on the error channel, leaves the last emitted
snapshot unchanged, emits no update that tick, and the loop simply
continues with the remaining ticks. -/
theorem ipv4_failure_is_transient :
    (∀ e f6 last, observeTick (Except.error e) f6 last =
      ⟨last, none, [fileErrMsg e]⟩) ∧
    (∀ c4 err f6 last, readNetTCPFile c4 true = Except.error err →
      observeTick (Except.ok c4) f6 last = ⟨last, none, [err]⟩) ∧
    (∀ e f6 rest last,
      observeRun ((Except.error e, f6) :: rest) last =
        observeRun rest last) := by
  refine ⟨fun e f6 last => rfl, ?_, fun e f6 rest last => rfl⟩
  intro c4 err f6 last h
  simp [observeTick, readV4, h]

/-- Witness for C7: a tick whose IPv4 table holds a record with the
non-hex port text `17GC` keeps the empty snapshot and surfaces the parse
error. -/
theorem ipv4_failure_is_transient_witness :
    observeTick (Except.ok tcp4LineBadPort) (Except.ok "") [] =
      ⟨[], none, ["cannot parse port"]⟩ :=
  ipv4_failure_is_transient.2.1 tcp4LineBadPort "cannot parse port"
    (Except.ok "") [] (by decide)

/-- C8: when the IPv6 table open fails with does-not-exist while the IPv4
read succeeds, the tick reports no error and the candidate snapshot is
exactly the sorted IPv4 result. -/
theorem ipv6_missing_tolerated :
    ∀ c4 p4 last, readNetTCPFile c4 true = Except.ok p4 →
      (observeTick (Except.ok c4) (Except.error FileError.notExist)
        last).errors = [] ∧
      (p4 ≠ last →
        observeTick (Except.ok c4) (Except.error FileError.notExist) last =
          ⟨p4, some p4, []⟩) ∧
      (p4 = last →
        observeTick (Except.ok c4) (Except.error FileError.notExist) last =
          ⟨last, none, []⟩) := by
  intro c4 p4 last hr4
  refine ⟨?_, ?_, ?_⟩
  · simp only [observeTick, readV4, hr4]
    split <;> rfl
  · intro hne
    simp [observeTick, readV4, readV6, hr4, hne]
  · intro heq
    simp [observeTick, readV4, readV6, hr4, heq]

/-- Witness for C8: the five-record fixture against a missing IPv6 table,
starting from the empty snapshot. -/
theorem ipv6_missing_tolerated_witness :
    (observeTick (Except.ok validTCPInput) (Except.error FileError.notExist)
      []).errors = [] ∧
    (expectedTCP4Ports ≠ [] →
      observeTick (Except.ok validTCPInput) (Except.error FileError.notExist)
        [] = ⟨expectedTCP4Ports, some expectedTCP4Ports, []⟩) ∧
    (expectedTCP4Ports = [] →
      observeTick (Except.ok validTCPInput) (Except.error FileError.notExist)
        [] = ⟨[], none, []⟩) :=
  ipv6_missing_tolerated validTCPInput expectedTCP4Ports [] (by decide)

/-- C9 (counterexample): corrupting every state field of the five-record
fixture — a malformed table — does not make `readNetTCPFile` fail: it
returns the empty port list with no error, refuting the claim that any
malformed record fails the whole read. -/
theorem malformed_error_counterexample :
    readNetTCPChars corruptedTCPInput true = Except.ok [] ∧
    ¬ ∃ e, readNetTCPChars corruptedTCPInput true = Except.error e := by
  have h : readNetTCPChars corruptedTCPInput true = Except.ok [] := by decide
  exact ⟨h, fun ⟨e, he⟩ => by rw [h] at he; exact Except.noConfusion he⟩

/-- C9 (amended): a parse error in any line that reaches field decoding
fails the entire read of that table, with no partial results; lines that
do not reach field decoding (wrong field count, non-matching or corrupted
state field, malformed local field) are silently skipped instead. -/
theorem malformed_retained_record_fails_read :
    (∀ lo ls l e, l ∈ ls → parseTCPLine lo l = Except.error e →
      ∃ e', readNetTCPLines lo ls = Except.error e') ∧
    (∀ (s : String) lo l e, l ∈ splitLines s.data →
      parseTCPLine lo l = Except.error e →
      ∃ e', readNetTCPFile s lo = Except.error e') ∧
    readNetTCPFile tcp4LineBadPort true =
      Except.error "cannot parse port" := by
  have h1 : ∀ (lo : Bool) ls (l : List Char) e, l ∈ ls →
      parseTCPLine lo l = Except.error e →
      ∃ e', readNetTCPLines lo ls = Except.error e' :=
    fun _ _ _ _ hl hp => readNetTCPLines_error_of_mem hl hp
  refine ⟨h1, ?_, by decide⟩
  intro s lo l e hl hp
  obtain ⟨e', he'⟩ := h1 lo _ l e hl hp
  exact ⟨e', by simp [readNetTCPFile, readNetTCPChars, he']⟩

/-- Witness for C9 (amended): the table holding the bad-port record fails
as a whole. -/
theorem malformed_retained_record_fails_read_witness :
    ∃ e', readNetTCPFile tcp4LineBadPort true = Except.error e' :=
  malformed_retained_record_fails_read.2.1 tcp4LineBadPort true
    tcp4LineBadPort.data "cannot parse port" (by decide) (by decide)

/-- C10: `readNetTCPFile` tolerates non-record lines without erroring: an
empty stream, a table with no header line and a leading blank line, and
the fixture with every `0A` deleted all succeed with a nil error, the
non-matching lines being silently skipped, and a blank line is skipped in
both modes. -/
theorem tolerant_non_record_lines :
    readNetTCPFile "" true = Except.ok [] ∧
    readNetTCPFile ip4NoHeaderInput true = Except.ok
      [⟨ipv4Loopback, 5900, true⟩, ⟨ipv4Zero, 6080, false⟩,
        ⟨ipv4Zero, 23000, false⟩] ∧
    readNetTCPChars corruptedTCPInput true = Except.ok [] ∧
    parseTCPLine true [] = Except.ok none ∧
    parseTCPLine false [] = Except.ok none :=
  ⟨by decide, by decide, by decide, by decide, by decide⟩

end Ports
